import Mathlib

/-!
# FocusFlow backend: session lifecycle, listing and credentials

A shallow embedding of the Express route handlers of the FocusFlow backend
(`src/routes/pomodoro.js`, `src/routes/auth.js`, `src/middleware/auth.js`) and of the
Mongoose schema `src/models/PomodoroSession.js`.

Conventions of the embedding:

* a collection is the list of its documents in natural order; `_id` values are natural numbers;
* dates are integers (milliseconds since the epoch), JavaScript numbers are integers;
* a handler is a function from the request data and the collection to the response and the
  collection after the request; `new Date()` is the argument `now`;
* the database is reachable: the only failures of a store call are the cast and validation
  errors Mongoose raises itself.
-/

set_option autoImplicit false

namespace FocusFlow

/-! ## Values -/

/-- Identifier of a document (`mongoose.Schema.Types.ObjectId`). -/
abbrev ObjectId := Nat

/-- A property as JavaScript sees it: missing (`undefined`), `null`, or holding a value. -/
inductive Field (α : Type) where
  | undefined
  | null
  | val (a : α)
  deriving DecidableEq, Repr

/-- A JavaScript value standing where a filter expects an ObjectId: a token claim or a route
parameter. `hex id` is the 24-digit string that spells the ObjectId `id` (what `jwt.sign`
makes of `user._id`, and what a client puts in the URL); `text` is any other string. -/
inductive IdValue where
  | undefined
  | hex (id : ObjectId)
  | text (s : String)
  deriving DecidableEq, Repr

/-- The decoded token payload that `auth` stores in `req.user`: a plain object. -/
abbrev Claims := List (String × IdValue)

/-- Property access `obj.key` on a plain object: `undefined` when the key is not there. -/
def prop (obj : Claims) (key : String) : IdValue :=
  match obj.lookup key with
  | some v => v
  | none => .undefined

/-! ## Documents (`models/PomodoroSession.js`) -/

/-- One element of `interruptions`: `{ timestamp: Date, reason: String }`. -/
structure Interruption where
  timestamp : Int
  reason : Field String
  deriving DecidableEq, Repr

/-- The nested path `task: { title, description, category }`. -/
structure Task where
  title : Field String
  description : Field String
  category : Field String
  deriving DecidableEq, Repr

/-- A document of the `PomodoroSession` collection. The schema field `type` is
`sessionType` here. -/
structure Session where
  _id : ObjectId
  user : Field ObjectId
  startTime : Int
  endTime : Field Int
  duration : Field Int
  sessionType : Field String
  completed : Bool
  task : Task
  interruptions : List Interruption
  productivity : Field Int
  notes : Field String
  deriving DecidableEq, Repr

/-- Errors a store call raises: a filter value that Mongoose cannot cast to the type of its
path, a document that fails validation (the failing paths with the validator kind), or a
command that the database server refuses. -/
inductive MongooseError where
  | CastError (path : String)
  | ValidationError (errors : List (String × String))
  | ServerError (reason : String)
  deriving DecidableEq, Repr

/-- The `required` validator: fails on `undefined` and `null`. -/
def checkRequired {α : Type} (path : String) : Field α → List (String × String)
  | .val _ => []
  | _ => [(path, "required")]

/-- Validators of `type`: `required` (a string must also be non-empty), then
`enum: ['work', 'shortBreak', 'longBreak']`. -/
def checkType : Field String → List (String × String)
  | .val s =>
    if s = "" then [("type", "required")]
    else if s ∈ ["work", "shortBreak", "longBreak"] then []
    else [("type", "enum")]
  | _ => [("type", "required")]

/-- The `min: 1` validator: `value == null || value >= 1`. -/
def minOk : Field Int → Bool
  | .val v => decide (v ≥ 1)
  | _ => true

/-- The `max: 10` validator: `value == null || value <= 10`. -/
def maxOk : Field Int → Bool
  | .val v => decide (v ≤ 10)
  | _ => true

/-- The custom validator of `productivity`:
`!this.completed || (value !== null && value !== undefined)`. -/
def productivityValidator (completed : Bool) (value : Field Int) : Bool :=
  !completed || (decide (value ≠ .null) && decide (value ≠ .undefined))

/-- Validators of `productivity`, in schema order `min`, `max`, `validate`; the first failure
is the error of the path. Mongoose runs no validator other than `required` on an `undefined`
value (`SchemaType.prototype.doValidate`). -/
def checkProductivity (completed : Bool) (value : Field Int) : List (String × String) :=
  match value with
  | .undefined => []
  | _ =>
    if !minOk value then [("productivity", "min")]
    else if !maxOk value then [("productivity", "max")]
    else if !productivityValidator completed value then [("productivity", "user defined")]
    else []

/-- Document validation run by `save()`: every path of the schema that carries a validator. -/
def validate (doc : Session) : List (String × String) :=
  checkRequired "user" doc.user ++ checkRequired "duration" doc.duration ++
    checkType doc.sessionType ++ checkProductivity doc.completed doc.productivity

/-! ## Store calls -/

/-- Mongoose casts a filter value to the ObjectId type of its path; it leaves `undefined`
alone and raises `CastError` on a string that spells no ObjectId. -/
def castObjectId (path : String) : IdValue → Except MongooseError (Field ObjectId)
  | .undefined => .ok .undefined
  | .hex id => .ok (.val id)
  | .text _ => .error (.CastError path)

/-- Equality match of a filter value against a stored field. The driver sends `undefined` as
`null` (`ignoreUndefined` is not set in `index.js`), and `null` matches a field that is
`null` or missing. -/
def matchesEq {α : Type} [DecidableEq α] (filter stored : Field α) : Bool :=
  match filter with
  | .val a => decide (stored = .val a)
  | _ =>
    match stored with
    | .val _ => false
    | _ => true

/-- `PomodoroSession.findOne({ _id: id, user: user })`. -/
def findOne (store : List Session) (id user : IdValue) :
    Except MongooseError (Option Session) :=
  match castObjectId "_id" id with
  | .error e => .error e
  | .ok idF =>
    match castObjectId "user" user with
    | .error e => .error e
    | .ok userF =>
      .ok (store.find? fun s => matchesEq idF (.val s._id) && matchesEq userF s.user)

/-- The write of `save()` on a loaded document: `updateOne({ _id: doc._id }, ...)`. -/
def updateOne (doc : Session) : List Session → List Session
  | [] => []
  | d :: rest => if d._id = doc._id then doc :: rest else d :: updateOne doc rest

/-- `doc.save()` on a loaded document: validate, then write. -/
def save (store : List Session) (doc : Session) : Except MongooseError (List Session) :=
  match validate doc with
  | [] => .ok (updateOne doc store)
  | errs => .error (.ValidationError errs)

/-- `doc.save()` on a document made with `new`: validate, then insert. -/
def saveNew (store : List Session) (doc : Session) : Except MongooseError (List Session) :=
  match validate doc with
  | [] => .ok (store ++ [doc])
  | errs => .error (.ValidationError errs)

/-! ## Users -/

/-- Modelled from the spec: the preferences sub-record of a user,
`{pomodoroLength, shortBreakLength, longBreakLength, dailyGoal}`, all optional. The schema
`models/User.js` is not among the sources. -/
structure Preferences where
  pomodoroLength : Field Int
  shortBreakLength : Field Int
  longBreakLength : Field Int
  dailyGoal : Field Int
  deriving DecidableEq, Repr

/-- Modelled from the spec: a document of the `User` collection of `models/User.js`, which is
not among the sources: identifier, unique username and email, hashed secret, and the
preferences sub-record. -/
structure User where
  _id : ObjectId
  username : String
  email : String
  password : String
  preferences : Option Preferences
  deriving DecidableEq, Repr

/-- A bearer token: either a string that is no token, or a payload signed with a secret and
carrying the claim `exp`, in whole seconds since the epoch. -/
inductive Token where
  | malformed
  | signed (payload : Claims) (secret : String) (exp : Int)
  deriving DecidableEq, Repr

/-! ## Responses -/

/-- The record built by the `$group` stage of `/stats` (and by its zero fallback).
`avgProductivity` is `none` for the `null` that `$avg` gives when no input is numeric. -/
structure Stats where
  totalSessions : Nat
  totalMinutes : Int
  avgProductivity : Option ℚ
  totalInterruptions : Nat
  deriving DecidableEq, Repr

/-- JSON bodies the handlers send. `failure m e` is `{ message: m, error: e.message }`;
`page` is `{ sessions, total, hasMore }`; `group r` is the aggregation record
`{ _id: null, ...r }` and `stats r` the literal fallback record; `errors` is
`{ errors: [...] }` with the messages of the failed checks; `credential` is
`{ token, user: { id, username, email } }`; `preferences` is `{ preferences }`. -/
inductive Body where
  | message (m : String)
  | failure (m : String) (error : MongooseError)
  | session (s : Session)
  | page (sessions : List Session) (total : Nat) (hasMore : Bool)
  | group (r : Stats)
  | stats (r : Stats)
  | errors (msgs : List String)
  | credential (token : Token) (id : ObjectId) (username email : String)
  | preferences (p : Preferences)
  deriving DecidableEq, Repr

/-- An HTTP response: status code and JSON body (`res.json` alone is status 200). -/
structure Response where
  status : Nat
  body : Body
  deriving DecidableEq, Repr

/-! ## Credentials (`middleware/auth.js`, `jwt.sign` in `routes/auth.js`) -/

/-- The environment variables read by the routes. `JWT_EXPIRE` holds the number of seconds
that the time span of the variable denotes. -/
structure Env where
  JWT_SECRET : Option String
  JWT_EXPIRE : Option Int
  deriving DecidableEq, Repr

/-- The expression `process.env.JWT_SECRET || 'misogiai'`. -/
def jwtSecret (env : Env) : String :=
  match env.JWT_SECRET with
  | some s => if s = "" then "misogiai" else s
  | none => "misogiai"

/-- The expression `process.env.JWT_EXPIRE || '1d'`, in seconds. -/
def jwtExpire (env : Env) : Int :=
  match env.JWT_EXPIRE with
  | some d => d
  | none => 86400

/-- The call `jwt.sign({ userId: user._id }, secret, { expiresIn })` of login and register, at
the instant `now` in milliseconds: the ObjectId is serialised to its hex string. The library
sets `iat = floor(now / 1000)` and `exp = iat + expiresIn`, kept in the token record; the
payload has no property `_id`. -/
def signToken (env : Env) (now : Int) (userId : ObjectId) : Token :=
  .signed [("userId", .hex userId)] (jwtSecret env) (now / 1000 + jwtExpire env)

/-- Error names of `jwt.verify`. -/
inductive JwtError where
  | JsonWebTokenError
  | TokenExpiredError
  deriving DecidableEq, Repr

/-- The call `jwt.verify(token, secret)` at the instant `now` in milliseconds: the payload
when the signature fits and the token has not expired, the clock being read in whole seconds,
`floor(now / 1000) >= exp`. -/
def jwtVerify (token : Token) (secret : String) (now : Int) : Except JwtError Claims :=
  match token with
  | .malformed => .error .JsonWebTokenError
  | .signed payload s exp =>
    if s ≠ secret then .error .JsonWebTokenError
    else if now / 1000 ≥ exp then .error .TokenExpiredError
    else .ok payload

/-- The middleware `auth`: `authorization` is the bearer token of the `Authorization` header,
`none` when the header is missing or empty. On success the decoded payload is `req.user`. -/
def auth (env : Env) (now : Int) (authorization : Option Token) : Except Response Claims :=
  match authorization with
  | none => .error ⟨401, .message "No token, authorization denied"⟩
  | some token =>
    match jwtVerify token (jwtSecret env) now with
    | .ok decoded => .ok decoded
    | .error .JsonWebTokenError => .error ⟨401, .message "Invalid token"⟩
    | .error .TokenExpiredError => .error ⟨401, .message "Token has expired"⟩

/-! ## Session handlers (`routes/pomodoro.js`) -/

/-- Body of `POST /start`: `{ duration, type, task }`. -/
structure StartBody where
  duration : Field Int
  sessionType : Field String
  task : Task
  deriving DecidableEq, Repr

/-- Handler of `POST /start`. `newId` is the ObjectId the driver generates for the new
document; `startTime` and `completed` take their schema defaults. An owner that cannot be
cast is reported by `save()` as a validation error of the path `user`. -/
def postStart (now : Int) (newId : ObjectId) (user : Claims) (body : StartBody)
    (store : List Session) : Response × List Session :=
  match castObjectId "user" (prop user "userId") with
  | .error _ =>
    (⟨400, .failure "Could not start session" (.ValidationError [("user", "ObjectId")])⟩, store)
  | .ok owner =>
    let session : Session :=
      { _id := newId, user := owner, startTime := now, endTime := .undefined,
        duration := body.duration, sessionType := body.sessionType, completed := false,
        task := body.task, interruptions := [], productivity := .undefined,
        notes := .undefined }
    match saveNew store session with
    | .error e => (⟨400, .failure "Could not start session" e⟩, store)
    | .ok store2 => (⟨201, .session session⟩, store2)

/-- Body of `PATCH /:id/end`: `{ productivity, notes }`. -/
structure EndBody where
  productivity : Field Int
  notes : Field String
  deriving DecidableEq, Repr

/-- Handler of `PATCH /:id/end`. -/
def patchEnd (now : Int) (user : Claims) (id : IdValue) (body : EndBody)
    (store : List Session) : Response × List Session :=
  match findOne store id (prop user "userId") with
  | .error e => (⟨400, .failure "Could not end session" e⟩, store)
  | .ok none => (⟨404, .message "Session not found"⟩, store)
  | .ok (some found) =>
    let session : Session :=
      { found with endTime := .val now, completed := true,
                   productivity := body.productivity, notes := body.notes }
    match save store session with
    | .error e => (⟨400, .failure "Could not end session" e⟩, store)
    | .ok store2 => (⟨200, .session session⟩, store2)

/-- Handler of `POST /:id/interruption`; `reason` is `req.body.reason`. -/
def postInterruption (now : Int) (user : Claims) (id : IdValue) (reason : Field String)
    (store : List Session) : Response × List Session :=
  match findOne store id (prop user "userId") with
  | .error e => (⟨400, .failure "Could not record interruption" e⟩, store)
  | .ok none => (⟨404, .message "Session not found"⟩, store)
  | .ok (some found) =>
    let session : Session :=
      { found with interruptions := found.interruptions ++ [⟨now, reason⟩] }
    match save store session with
    | .error e => (⟨400, .failure "Could not record interruption" e⟩, store)
    | .ok store2 => (⟨200, .session session⟩, store2)

/-! ## Listing and statistics (`routes/pomodoro.js`) -/

/-- Query string of `GET /`. `startDate` and `endDate` hold the instant `new Date(...)` makes
of the parameter; `limit` and `skip` hold the result of `parseInt` on the parameter, `none`
for `NaN` (also when the parameter is absent). Negative numbers are outside the model. -/
structure ListQuery where
  completed : Option String
  sessionType : Option String
  startDate : Option Int
  endDate : Option Int
  sortBy : Option String
  limit : Option Nat
  skip : Option Nat
  deriving DecidableEq, Repr

/-- JavaScript truthiness of a query parameter: present and not the empty string. -/
def truthy : Option String → Bool
  | some s => decide (s ≠ "")
  | none => false

/-- The filter object `match` built by `GET /`. `startTime` holds the pair `($gte, $lte)`. -/
structure Match where
  user : IdValue
  completed : Option Bool
  sessionType : Option String
  startTime : Option (Option Int × Option Int)
  deriving DecidableEq, Repr

/-- The statements of `GET /` that fill `match`. The owner comes from `req.user._id`. -/
def buildMatch (user : Claims) (q : ListQuery) : Match :=
  { user := prop user "_id",
    completed := if truthy q.completed then some (decide (q.completed = some "true")) else none,
    sessionType := if truthy q.sessionType then q.sessionType else none,
    startTime :=
      if q.startDate.isSome || q.endDate.isSome then some (q.startDate, q.endDate) else none }

/-- The range test `{ $gte, $lte }` on `startTime`; an absent bound does not constrain. -/
def inRange (bounds : Option Int × Option Int) (t : Int) : Bool :=
  (match bounds.1 with
    | some lo => decide (lo ≤ t)
    | none => true) &&
  (match bounds.2 with
    | some hi => decide (t ≤ hi)
    | none => true)

/-- Does a stored session satisfy the (cast) filter, `owner` being the cast of `m.user`. -/
def Match.test (m : Match) (owner : Field ObjectId) (s : Session) : Bool :=
  matchesEq owner s.user &&
  (match m.completed with
    | some b => decide (s.completed = b)
    | none => true) &&
  (match m.sessionType with
    | some t => matchesEq (.val t) s.sessionType
    | none => true) &&
  (match m.startTime with
    | some bounds => inRange bounds s.startTime
    | none => true)

/-- Value of a sort path in a document, in the comparison order of the database: a missing or
`null` value sorts before numbers, numbers before strings, strings before booleans. -/
inductive SortKey where
  | null
  | num (n : Int)
  | str (s : String)
  | bool (b : Bool)
  deriving DecidableEq, Repr

/-- Lifts a field to a sort key. -/
def SortKey.ofField {α : Type} (f : α → SortKey) : Field α → SortKey
  | .val a => f a
  | _ => .null

/-- The sort key of a document for a path of the schema; other paths give no key. -/
def sortKey (path : String) (s : Session) : SortKey :=
  if path = "_id" then .num s._id
  else if path = "user" then SortKey.ofField (fun (n : ObjectId) => .num n) s.user
  else if path = "startTime" then .num s.startTime
  else if path = "endTime" then SortKey.ofField .num s.endTime
  else if path = "duration" then SortKey.ofField .num s.duration
  else if path = "type" then SortKey.ofField .str s.sessionType
  else if path = "completed" then .bool s.completed
  else if path = "productivity" then SortKey.ofField .num s.productivity
  else if path = "notes" then SortKey.ofField .str s.notes
  else if path = "task.title" then SortKey.ofField .str s.task.title
  else if path = "task.description" then SortKey.ofField .str s.task.description
  else if path = "task.category" then SortKey.ofField .str s.task.category
  else .null

/-- The order of sort keys. -/
def SortKey.le : SortKey → SortKey → Bool
  | .null, _ => true
  | .num _, .null => false
  | .num a, .num b => decide (a ≤ b)
  | .num _, _ => true
  | .str _, .null => false
  | .str _, .num _ => false
  | .str a, .str b => decide (a ≤ b)
  | .str _, .bool _ => true
  | .bool _, .null => false
  | .bool _, .num _ => false
  | .bool _, .str _ => false
  | .bool a, .bool b => decide (a ≤ b)

/-- The sort specification `{ [path]: direction }`, `descending` for `-1`. -/
structure SortSpec where
  path : String
  descending : Bool
  deriving DecidableEq, Repr

/-- The statements of `GET /` that fill `sort`: `sortBy.split(':')`, else start time
descending. The key is whatever stands before the first colon, the empty string included;
`find` is where a key that is no field path makes the query fail. -/
def buildSort (q : ListQuery) : SortSpec :=
  if truthy q.sortBy then
    let parts := (q.sortBy.getD "").splitOn ":"
    { path := parts.headD "", descending := decide (parts.get? 1 = some "desc") }
  else { path := "startTime", descending := true }

/-- The relation a sort specification orders documents by. -/
def SortSpec.before (spec : SortSpec) (a b : Session) : Prop :=
  if spec.descending then SortKey.le (sortKey spec.path b) (sortKey spec.path a) = true
  else SortKey.le (sortKey spec.path a) (sortKey spec.path b) = true

instance (spec : SortSpec) : DecidableRel spec.before := fun a b => by
  unfold SortSpec.before; exact inferInstance

/-- Is a list of characters a field path the server accepts, `atStart` telling that a
component begins: no component is empty or begins with `$`, and no character is NUL. Paths
of more than 200 components are outside the model. -/
def fieldPathOk : Bool → List Char → Bool
  | atStart, [] => !atStart
  | atStart, c :: rest =>
    if c = '.' then !atStart && fieldPathOk true rest
    else if c = Char.ofNat 0 then false
    else if atStart && decide (c = '$') then false
    else fieldPathOk false rest

/-- Does the server accept the key of the sort object: the key `$natural`, or a field path.
The empty key that `sortBy=':desc'` gives, and a key such as `$bad`, are refused. -/
def validSortPath (path : String) : Bool :=
  decide (path = "$natural") || fieldPathOk true path.toList

/-- The order the server returns the selected documents in: natural order or its reverse for
`$natural`, else the order of the sort path, documents with equal keys staying in natural
order. -/
def sortDocs (spec : SortSpec) (docs : List Session) : List Session :=
  if spec.path = "$natural" then (if spec.descending then docs.reverse else docs)
  else docs.insertionSort spec.before

/-- The documents `find(match)` selects, before sorting and paging: `owner` is the cast of
`match.user`. -/
def selected (m : Match) (owner : Field ObjectId) (store : List Session) : List Session :=
  store.filter (m.test owner)

/-- The query `PomodoroSession.find(match).sort(sort).limit(limit).skip(skip)`: Mongoose
casts the filter, the server refuses a sort key that is no field path, and otherwise sorts,
skips, then limits, whatever the order of the builder calls. -/
def find (store : List Session) (m : Match) (sort : SortSpec) (limit skip : Nat) :
    Except MongooseError (List Session) :=
  match castObjectId "user" m.user with
  | .error e => .error e
  | .ok owner =>
    if validSortPath sort.path then
      .ok (((sortDocs sort (selected m owner store)).drop skip).take limit)
    else .error (.ServerError "sort key")

/-- The call `PomodoroSession.countDocuments(match)`. -/
def countDocuments (store : List Session) (m : Match) : Except MongooseError Nat :=
  match castObjectId "user" m.user with
  | .error e => .error e
  | .ok owner => .ok (selected m owner store).length

/-- The expression `parseInt(req.query.limit) || 10`. -/
def pageLimit (q : ListQuery) : Nat :=
  match q.limit with
  | some n => if n = 0 then 10 else n
  | none => 10

/-- The expression `parseInt(req.query.skip) || 0`. -/
def pageSkip (q : ListQuery) : Nat :=
  match q.skip with
  | some n => if n = 0 then 0 else n
  | none => 0

/-- Handler of `GET /`. -/
def getSessions (user : Claims) (q : ListQuery) (store : List Session) : Response :=
  let m := buildMatch user q
  let sort := buildSort q
  let limit := pageLimit q
  let skip := pageSkip q
  match find store m sort limit skip with
  | .error e => ⟨500, .failure "Could not fetch sessions" e⟩
  | .ok sessions =>
    match countDocuments store m with
    | .error e => ⟨500, .failure "Could not fetch sessions" e⟩
    | .ok total => ⟨200, .page sessions total (decide (total > skip + limit))⟩

/-- Equality match inside an aggregation pipeline: Mongoose does not cast there, so a string
never equals a stored ObjectId, and `undefined` is sent as `null`. -/
def matchesRaw (filter : IdValue) (stored : Field ObjectId) : Bool :=
  match filter with
  | .undefined =>
    (match stored with
      | .val _ => false
      | _ => true)
  | _ => false

/-- The accumulator `$sum` over a field: values that are not numbers count as 0. -/
def numberOr0 : Field Int → Int
  | .val n => n
  | _ => 0

/-- The numeric values of a field, the inputs `$avg` keeps. -/
def numbers : List (Field Int) → List Int
  | [] => []
  | .val n :: rest => n :: numbers rest
  | _ :: rest => numbers rest

/-- The accumulator `$avg`: mean of the numeric inputs, `null` when there is none. -/
def avg (values : List (Field Int)) : Option ℚ :=
  match numbers values with
  | [] => none
  | ns => some ((ns.sum : ℚ) / (ns.length : ℚ))

/-- The stage `$group: { _id: null, ... }` of `/stats`: no record for an empty input. -/
def groupAll (docs : List Session) : List Stats :=
  match docs with
  | [] => []
  | _ =>
    [{ totalSessions := docs.length,
       totalMinutes := (docs.map fun s => numberOr0 s.duration).sum,
       avgProductivity := avg (docs.map fun s => s.productivity),
       totalInterruptions := (docs.map fun s => s.interruptions.length).sum }]

/-- Query string of `GET /stats`, the dates as parsed by `new Date(...)`. -/
structure StatsQuery where
  startDate : Option Int
  endDate : Option Int
  deriving DecidableEq, Repr

/-- The `$match` stage of `/stats`: owner `req.user._id`, start time in the closed range,
`completed: true`. -/
def statsMatch (user : Claims) (startDate endDate : Int) (s : Session) : Bool :=
  matchesRaw (prop user "_id") s.user &&
    (decide (startDate ≤ s.startTime) && decide (s.startTime ≤ endDate)) &&
    decide (s.completed = true)

/-- Handler of `GET /stats`. -/
def getStats (now : Int) (user : Claims) (q : StatsQuery) (store : List Session) : Response :=
  let startDate := match q.startDate with
    | some d => d
    | none => 0
  let endDate := match q.endDate with
    | some d => d
    | none => now
  match groupAll (store.filter (statsMatch user startDate endDate)) with
  | r :: _ => ⟨200, .group r⟩
  | [] => ⟨200, .stats { totalSessions := 0, totalMinutes := 0, avgProductivity := some 0,
                         totalInterruptions := 0 }⟩

/-! ## Account handlers (`routes/auth.js`) -/

/-- Body of `POST /login`; a property is `none` when the body does not have it. -/
structure LoginBody where
  email : Option String
  password : Option String
  deriving DecidableEq, Repr

/-- The validation chain of `POST /login`: `isEmail` is the check of the validation library,
`exists()` asks for a password that is not `undefined`. -/
def loginErrors (isEmail : String → Bool) (body : LoginBody) : List String :=
  (match body.email with
    | some e => if isEmail e then [] else ["Please enter a valid email"]
    | none => ["Please enter a valid email"]) ++
  (match body.password with
    | some _ => []
    | none => ["Password is required"])

/-- Handler of `POST /login`. `isEmail` and `normalizeEmail` are the validator and the
sanitizer of the validation library; `comparePassword candidate hash` is the method
`user.comparePassword` of the missing `models/User.js`. -/
def postLogin (env : Env) (now : Int) (isEmail : String → Bool)
    (normalizeEmail : String → String) (comparePassword : String → String → Bool)
    (body : LoginBody) (users : List User) : Response :=
  match loginErrors isEmail body with
  | e :: es => ⟨400, .errors (e :: es)⟩
  | [] =>
    let email := normalizeEmail (body.email.getD "")
    let password := body.password.getD ""
    match users.find? (fun u => decide (u.email = email)) with
    | none => ⟨400, .message "Invalid credentials"⟩
    | some user =>
      if !comparePassword password user.password then ⟨400, .message "Invalid credentials"⟩
      else ⟨200, .credential (signToken env now user._id) user._id user.username user.email⟩

/-- The list `allowedUpdates` of `PATCH /preferences`. -/
def allowedUpdates : List String :=
  ["pomodoroLength", "shortBreakLength", "longBreakLength", "dailyGoal"]

/-- Property read `preferences[key]`. -/
def Preferences.get (p : Preferences) (key : String) : Field Int :=
  if key = "pomodoroLength" then p.pomodoroLength
  else if key = "shortBreakLength" then p.shortBreakLength
  else if key = "longBreakLength" then p.longBreakLength
  else if key = "dailyGoal" then p.dailyGoal
  else .undefined

/-- Assignment `preferences[key] = value`; a key outside the sub-record is not stored. -/
def Preferences.set (p : Preferences) (key : String) (value : Field Int) : Preferences :=
  if key = "pomodoroLength" then { p with pomodoroLength := value }
  else if key = "shortBreakLength" then { p with shortBreakLength := value }
  else if key = "longBreakLength" then { p with longBreakLength := value }
  else if key = "dailyGoal" then { p with dailyGoal := value }
  else p

/-- Property read `req.body[key]` on the JSON body, a list of its members. -/
def bodyValue (body : List (String × Field Int)) (key : String) : Field Int :=
  match body.lookup key with
  | some v => v
  | none => .undefined

/-- The loop `updateKeys.forEach(key => { user.preferences[key] = req.body[key]; })`. -/
def applyUpdates (body : List (String × Field Int)) (updateKeys : List String)
    (initial : Preferences) : Preferences :=
  updateKeys.foldl (fun p key => p.set key (bodyValue body key)) initial

/-- The preferences the handler starts from: those of the user, or `{}`. -/
def initialPreferences (found : User) : Preferences :=
  match found.preferences with
  | some p => p
  | none => ⟨.undefined, .undefined, .undefined, .undefined⟩

/-- The preferences of the user after the loop over the keys of the body. -/
def mergedPreferences (body : List (String × Field Int)) (found : User) : Preferences :=
  applyUpdates body (body.map Prod.fst) (initialPreferences found)

/-- The user document the handler hands to `save()`. -/
def mergedUser (body : List (String × Field Int)) (found : User) : User :=
  { found with preferences := some (mergedPreferences body found) }

/-- `User.findById(id)`: `undefined` is looked up as `null` and finds nothing. -/
def findById (users : List User) (id : IdValue) : Except MongooseError (Option User) :=
  match castObjectId "_id" id with
  | .error e => .error e
  | .ok (.val n) => .ok (users.find? fun u => decide (u._id = n))
  | .ok _ => .ok none

/-- The write of `user.save()`: `updateOne({ _id: doc._id }, ...)`. -/
def updateUser (doc : User) : List User → List User
  | [] => []
  | d :: rest => if d._id = doc._id then doc :: rest else d :: updateUser doc rest

/-- Handler of `PATCH /preferences`. `body` is the JSON body as the list of its members, the
values being numbers or `null`;
`validateUser` is the validation that `save()` runs for the schema of the missing
`models/User.js` (the failing paths, none when the document is accepted). -/
def patchPreferences (validateUser : User → List (String × String)) (user : Claims)
    (body : List (String × Field Int)) (users : List User) : Response × List User :=
  let updateKeys := body.map Prod.fst
  let isValidOperation := updateKeys.all fun key => allowedUpdates.contains key
  if !isValidOperation then (⟨400, .message "Invalid updates in preferences"⟩, users)
  else
    match findById users (prop user "userId") with
    | .error _ => (⟨400, .message "Failed to update preferences"⟩, users)
    | .ok none => (⟨404, .message "User not found"⟩, users)
    | .ok (some found) =>
      let doc := mergedUser body found
      match validateUser doc with
      | [] => (⟨200, .preferences (mergedPreferences body found)⟩, updateUser doc users)
      | _ :: _ => (⟨400, .message "Failed to update preferences"⟩, users)

/-! ## Routes behind the middleware -/

/-- The route `GET /api/pomodoro`: `auth`, then the handler. -/
def routeGetSessions (env : Env) (now : Int) (authorization : Option Token) (q : ListQuery)
    (store : List Session) : Response :=
  match auth env now authorization with
  | .error denied => denied
  | .ok user => getSessions user q store

/-- The route `GET /api/pomodoro/stats`: `auth`, then the handler. -/
def routeGetStats (env : Env) (now : Int) (authorization : Option Token) (q : StatsQuery)
    (store : List Session) : Response :=
  match auth env now authorization with
  | .error denied => denied
  | .ok user => getStats now user q store

/-- The route `PATCH /api/pomodoro/:id/end`: `auth`, then the handler. -/
def routePatchEnd (env : Env) (now : Int) (authorization : Option Token) (id : IdValue)
    (body : EndBody) (store : List Session) : Response × List Session :=
  match auth env now authorization with
  | .error denied => (denied, store)
  | .ok user => patchEnd now user id body store

/-- Successive `POST /:id/interruption` requests of one caller on one id, each with its
instant and reason: the responses in order and the collection after the last. -/
def recordAll (user : Claims) (id : IdValue) :
    List (Int × Field String) → List Session → List Response × List Session
  | [], store => ([], store)
  | (now, reason) :: rest, store =>
    let step := postInterruption now user id reason store
    let later := recordAll user id rest step.2
    (step.1 :: later.1, later.2)

/-! ## Analytics (`routes/analytics.js`)

The pipelines are passed to `PomodoroSession.aggregate`, which does not cast: the owner is
compared by `matchesRaw`. No stage raises an error on a stored session, so the `catch`
branches of the handlers are not reached. -/

/-- The test `{ $exists: true }`: the property is there, whatever its value, `null`
included. -/
def Field.isPresent {α : Type} : Field α → Bool
  | .undefined => false
  | _ => true

/-- A value as a `$group` key: a missing value groups with `null`, which is `none`. -/
def groupKey {α : Type} : Field α → Option α
  | .val a => some a
  | _ => none

/-- The distinct values of a list, in order of first appearance: the keys of a `$group`. -/
def distinct {α : Type} [DecidableEq α] : List α → List α
  | [] => []
  | a :: rest => a :: (distinct rest).filter fun b => decide (b ≠ a)

/-- One record of the `$group` stage of `/categories`. -/
structure CategoryStats where
  _id : Option String
  totalSessions : Nat
  totalMinutes : Int
  avgProductivity : Option ℚ
  interruptions : Nat
  deriving DecidableEq, Repr

/-- The `$match` stage of `/categories`: owner `req.user.userId`, `completed: true`,
`'task.category': { $exists: true }`. -/
def categoriesMatch (user : Claims) (s : Session) : Bool :=
  matchesRaw (prop user "userId") s.user && decide (s.completed = true) &&
    s.task.category.isPresent

/-- The accumulators of `/categories` over the documents that have the group key. -/
def categoryGroup (docs : List Session) (key : Option String) : CategoryStats :=
  { _id := key,
    totalSessions := (docs.filter fun s => decide (groupKey s.task.category = key)).length,
    totalMinutes :=
      ((docs.filter fun s => decide (groupKey s.task.category = key)).map
        fun s => numberOr0 s.duration).sum,
    avgProductivity :=
      avg ((docs.filter fun s => decide (groupKey s.task.category = key)).map
        fun s => s.productivity),
    interruptions :=
      ((docs.filter fun s => decide (groupKey s.task.category = key)).map
        fun s => s.interruptions.length).sum }

/-- The stage `$group: { _id: '$task.category', ... }`. -/
def groupByCategory (docs : List Session) : List CategoryStats :=
  (distinct (docs.map fun s => groupKey s.task.category)).map (categoryGroup docs)

/-- The order of `$sort: { totalMinutes: -1 }`. -/
def CategoryStats.before (a b : CategoryStats) : Prop :=
  b.totalMinutes ≤ a.totalMinutes

instance : DecidableRel CategoryStats.before := fun a b => by
  unfold CategoryStats.before; exact inferInstance

/-- The sessions the `$match` stage of `/categories` lets through. -/
def categoryMatched (user : Claims) (store : List Session) : List Session :=
  store.filter (categoriesMatch user)

/-- The pipeline of `/categories`: match, group, sort. -/
def categoryStats (user : Claims) (store : List Session) : List CategoryStats :=
  (groupByCategory (categoryMatched user store)).insertionSort CategoryStats.before

/-- One record of the first pipeline of `/insights`; `_id` is the hour of the day. -/
structure HourStats where
  _id : Nat
  avgProductivity : Option ℚ
  sessionCount : Nat
  deriving DecidableEq, Repr

/-- One record of the second pipeline of `/insights`; `_id` is the reason, `none` for
`null`. -/
structure ReasonStats where
  _id : Option String
  count : Nat
  deriving DecidableEq, Repr

/-- The operator `$hour` on an instant in milliseconds (UTC). -/
def hourOf (t : Int) : Nat :=
  ((t / 3600000) % 24).toNat

/-- The `$match` stage of the first pipeline of `/insights`: owner, `completed: true`,
`productivity: { $exists: true }`. -/
def productiveMatch (user : Claims) (s : Session) : Bool :=
  matchesRaw (prop user "userId") s.user && decide (s.completed = true) &&
    s.productivity.isPresent

/-- The accumulators of the first pipeline over the documents of one hour. -/
def hourGroup (docs : List Session) (hour : Nat) : HourStats :=
  { _id := hour,
    avgProductivity :=
      avg ((docs.filter fun s => decide (hourOf s.startTime = hour)).map
        fun s => s.productivity),
    sessionCount := (docs.filter fun s => decide (hourOf s.startTime = hour)).length }

/-- The order of averages in the database: `null` sorts before every number. -/
def avgLe : Option ℚ → Option ℚ → Bool
  | none, _ => true
  | some _, none => false
  | some a, some b => decide (a ≤ b)

/-- The order of `$sort: { avgProductivity: -1 }`. -/
def HourStats.before (a b : HourStats) : Prop :=
  avgLe b.avgProductivity a.avgProductivity = true

instance : DecidableRel HourStats.before := fun a b => by
  unfold HourStats.before; exact inferInstance

/-- The first pipeline of `/insights`: match, project the hour, group by hour, sort by
average descending, `$limit: 3`. -/
def productiveHours (user : Claims) (store : List Session) : List HourStats :=
  (((distinct ((store.filter (productiveMatch user)).map fun s => hourOf s.startTime)).map
    (hourGroup (store.filter (productiveMatch user)))).insertionSort HourStats.before).take 3

/-- The `$match` stage of the second pipeline of `/insights`: owner, and
`'interruptions.0': { $exists: true }`. -/
def interruptedMatch (user : Claims) (s : Session) : Bool :=
  matchesRaw (prop user "userId") s.user && decide (s.interruptions ≠ [])

/-- The stage `$unwind: '$interruptions'`: one document for each interruption. -/
def unwind : List Session → List Interruption
  | [] => []
  | s :: rest => s.interruptions ++ unwind rest

/-- The accumulator of the second pipeline over the interruptions with one reason. -/
def reasonGroup (items : List Interruption) (key : Option String) : ReasonStats :=
  { _id := key, count := (items.filter fun i => decide (groupKey i.reason = key)).length }

/-- The order of `$sort: { count: -1 }`. -/
def ReasonStats.before (a b : ReasonStats) : Prop :=
  b.count ≤ a.count

instance : DecidableRel ReasonStats.before := fun a b => by
  unfold ReasonStats.before; exact inferInstance

/-- The second pipeline of `/insights`: match, unwind, group by reason, sort by count
descending, `$limit: 5`. -/
def topInterruptions (user : Claims) (store : List Session) : List ReasonStats :=
  (((distinct ((unwind (store.filter (interruptedMatch user))).map
      fun i => groupKey i.reason)).map
    (reasonGroup (unwind (store.filter (interruptedMatch user))))).insertionSort
      ReasonStats.before).take 5

/-- One element of `recommendations`: `{ type, message }`; `type` is `recType` here. -/
structure Recommendation where
  recType : String
  message : String
  deriving DecidableEq, Repr

/-- The method `Array.prototype.join`: the elements with the separator between them, a
`null` element giving the empty string. -/
def join (separator : String) : List (Option String) → String
  | [] => ""
  | [a] => a.getD ""
  | a :: b :: rest => a.getD "" ++ separator ++ join separator (b :: rest)

/-- The array `recommendations` of `/insights`, with its two template literals. -/
def recommendations (productiveHours : List HourStats) (interruptions : List ReasonStats) :
    List Recommendation :=
  [ { recType := "optimal_time",
      message := "Your most productive hours are " ++
        join ", " (productiveHours.map fun h => some (toString h._id ++ ":00")) ++
        ". Try scheduling important tasks during these times." },
    { recType := "interruption_management",
      message :=
        if interruptions.length > 0 then
          "Common interruptions: " ++ join ", " (interruptions.map fun i => i._id) ++
            ". Consider addressing these distractions."
        else "No significant interruption patterns detected." } ]

/-- JSON bodies of the analytics handlers: the array of `/categories`, and the object
`{ productiveHours, interruptions, recommendations }` of `/insights`. -/
inductive AnalyticsBody where
  | categories (entries : List CategoryStats)
  | insights (productiveHours : List HourStats) (interruptions : List ReasonStats)
      (recommendations : List Recommendation)
  deriving DecidableEq, Repr

/-- A response of an analytics handler. -/
structure AnalyticsResponse where
  status : Nat
  body : AnalyticsBody
  deriving DecidableEq, Repr

/-- Handler of `GET /categories`. -/
def getCategories (user : Claims) (store : List Session) : AnalyticsResponse :=
  ⟨200, .categories (categoryStats user store)⟩

/-- Handler of `GET /insights`. -/
def getInsights (user : Claims) (store : List Session) : AnalyticsResponse :=
  ⟨200, .insights (productiveHours user store) (topInterruptions user store)
    (recommendations (productiveHours user store) (topInterruptions user store))⟩

/-- The route `GET /api/analytics/categories`: `auth`, then the handler; the error is the
response of the middleware. -/
def routeGetCategories (env : Env) (now : Int) (authorization : Option Token)
    (store : List Session) : Except Response AnalyticsResponse :=
  match auth env now authorization with
  | .error denied => .error denied
  | .ok user => .ok (getCategories user store)

/-- The route `GET /api/analytics/insights`: `auth`, then the handler; the error is the
response of the middleware. -/
def routeGetInsights (env : Env) (now : Int) (authorization : Option Token)
    (store : List Session) : Except Response AnalyticsResponse :=
  match auth env now authorization with
  | .error denied => .error denied
  | .ok user => .ok (getInsights user store)

/-! ## Sample data -/

/-- An environment with no variable set. -/
def env0 : Env := ⟨none, none⟩

/-- A task with no property. -/
def noTask : Task := ⟨.undefined, .undefined, .undefined⟩

/-- The document `POST /start` stores for `{ duration: 25, type: 'work' }`. -/
def workSession (id owner : ObjectId) (start : Int) : Session :=
  { _id := id, user := .val owner, startTime := start, endTime := .undefined,
    duration := .val 25, sessionType := .val "work", completed := false, task := noTask,
    interruptions := [], productivity := .undefined, notes := .undefined }

/-- A session of user 7 that was ended with productivity 8 after one interruption. -/
def completedSession : Session :=
  { workSession 1 7 100 with endTime := .val 200, completed := true, productivity := .val 8,
                             interruptions := [⟨150, .val "call"⟩] }

/-- A user with no stored preference. -/
def sampleUser : User :=
  { _id := 7, username := "ada", email := "ada@example.org", password := "hash-of-secret",
    preferences := none }

/-- A query string with no parameter. -/
def emptyQuery : ListQuery := ⟨none, none, none, none, none, none, none⟩

/-- Fifteen sessions of user 7, with ids 0 to 14. -/
def fifteen : List Session := (List.range 15).map fun i => workSession i 7 (100 + i)

/-- A completed session of user 7 in the category "writing". -/
def writingSession : Session :=
  { completedSession with task := ⟨.val "draft", .undefined, .val "writing"⟩ }

/-! ## Lemmas on the store calls -/

theorem length_updateOne (doc : Session) (store : List Session) :
    (updateOne doc store).length = store.length := by
  induction store with
  | nil => rfl
  | cons d rest ih =>
    unfold updateOne
    split <;> simp [ih]

theorem map_id_updateOne (doc : Session) (store : List Session) :
    (updateOne doc store).map Session._id = store.map Session._id := by
  induction store with
  | nil => rfl
  | cons d rest ih =>
    unfold updateOne
    split
    · next h => simp [h]
    · simp [ih]

/-- A lookup that casts finds the first document with the id and the owner. -/
theorem findOne_hex (store : List Session) (sid uid : ObjectId) :
    findOne store (.hex sid) (.hex uid) =
      .ok (store.find? fun s => decide (s._id = sid) && decide (s.user = .val uid)) := by
  simp [findOne, castObjectId, matchesEq]

/-- After the write of a document that keeps the id and passes the test of a lookup, the
lookup that found the old document finds the new one. -/
theorem find_updateOne (store : List Session) (test : Session → Bool) (old doc : Session)
    (hfound : store.find? test = some old)
    (hid : doc._id = old._id) (hdoc : test doc = true) :
    (updateOne doc store).find? test = some doc := by
  induction store with
  | nil => simp at hfound
  | cons d rest ih =>
    unfold updateOne
    by_cases hd : d._id = doc._id
    · simp [hd, List.find?, hdoc]
    · simp only [hd, if_false]
      by_cases ht : test d = true
      · have : old = d := by simpa [List.find?, ht] using hfound.symm
        exact absurd (this ▸ hid.symm) hd
      · have hfound2 : rest.find? test = some old := by
          simpa [List.find?, ht] using hfound
        simp [List.find?, ht, ih hfound2]

/-- What a successful lookup says: both filter values cast, and the document is the first to
pass both equality tests. -/
theorem findOne_some (store : List Session) (id user : IdValue) (found : Session)
    (h : findOne store id user = .ok (some found)) :
    ∃ idF userF, castObjectId "_id" id = .ok idF ∧ castObjectId "user" user = .ok userF ∧
      store.find? (fun s => matchesEq idF (.val s._id) && matchesEq userF s.user) =
        some found := by
  unfold findOne at h
  split at h
  · cases h
  · next idF hid =>
    split at h
    · cases h
    · next userF huser =>
      refine ⟨idF, userF, hid, huser, ?_⟩
      simpa using h

/-- A lookup repeated after the write of a document with the same id and owner finds it. -/
theorem findOne_updateOne (store : List Session) (id user : IdValue) (old doc : Session)
    (h : findOne store id user = .ok (some old))
    (hid : doc._id = old._id) (huser : doc.user = old.user) :
    findOne (updateOne doc store) id user = .ok (some doc) := by
  obtain ⟨idF, userF, h1, h2, h3⟩ := findOne_some store id user old h
  have hold := List.find?_some h3
  have hdoc : (fun s : Session => matchesEq idF (.val s._id) && matchesEq userF s.user) doc
      = true := by
    simpa [hid, huser] using hold
  unfold findOne
  rw [h1, h2]
  simp only
  rw [find_updateOne store _ old doc h3 hid hdoc]

/-- Sorting keeps the number of documents. -/
theorem length_sortDocs (sort : SortSpec) (docs : List Session) :
    (sortDocs sort docs).length = docs.length := by
  unfold sortDocs
  split
  · split
    · exact List.length_reverse docs
    · rfl
  · exact List.length_insertionSort _ docs

/-- The page of a query has `min limit (n - skip)` documents, `n` the number selected. -/
theorem length_page (sort : SortSpec) (docs : List Session) (limit skip : Nat) :
    (((sortDocs sort docs).drop skip).take limit).length =
      min limit (docs.length - skip) := by
  rw [List.length_take, List.length_drop, length_sortDocs]

/-- The lookup of a caller finds nothing under an id whose only document has another owner. -/
theorem findOne_other_owner (store : List Session) (s : Session) (a b : ObjectId)
    (hnodup : (store.map Session._id).Nodup) (hs : s ∈ store) (howner : s.user = .val a)
    (hne : b ≠ a) : findOne store (.hex s._id) (.hex b) = .ok none := by
  rw [findOne_hex]
  congr 1
  rw [List.find?_eq_none]
  intro d hd
  simp only [Bool.and_eq_true, decide_eq_true_eq, not_and]
  intro hid huser
  have hds : d = s := List.inj_on_of_nodup_map hnodup hd hs hid
  rw [hds, howner] at huser
  exact hne (Field.val.inj huser).symm

/-- The lookup finds nothing under an id that no document has. -/
theorem findOne_missing (store : List Session) (missing b : ObjectId)
    (hmissing : ∀ d ∈ store, d._id ≠ missing) :
    findOne store (.hex missing) (.hex b) = .ok none := by
  rw [findOne_hex]
  congr 1
  rw [List.find?_eq_none]
  intro d hd
  simp [hmissing d hd]

/-- A save either writes the document or fails validation. -/
theorem save_cases (store : List Session) (doc : Session) :
    save store doc = .ok (updateOne doc store) ∨
      ∃ errs, save store doc = .error (.ValidationError errs) := by
  unfold save
  cases validate doc with
  | nil => exact Or.inl rfl
  | cons e es => exact Or.inr ⟨_, rfl⟩

/-- A recorded interruption that answers 200 wrote the found session with the new record at
the end of its sequence. -/
theorem postInterruption_ok (now : Int) (user : Claims) (id : IdValue) (reason : Field String)
    (store : List Session) (found : Session)
    (hfound : findOne store id (prop user "userId") = .ok (some found))
    (hok : (postInterruption now user id reason store).1.status = 200) :
    postInterruption now user id reason store =
      (⟨200, .session { found with interruptions := found.interruptions ++ [⟨now, reason⟩] }⟩,
        updateOne { found with interruptions := found.interruptions ++ [⟨now, reason⟩] }
          store) := by
  unfold postInterruption at hok ⊢
  rw [hfound] at hok ⊢
  simp only at hok ⊢
  rcases save_cases store
    { found with interruptions := found.interruptions ++ [⟨now, reason⟩] } with h | ⟨errs, h⟩
  · rw [h]
  · rw [h] at hok
    simp at hok

/-- An end that answers 200 wrote the found session with the four assigned properties. -/
theorem patchEnd_ok (now : Int) (user : Claims) (id : IdValue) (body : EndBody)
    (store : List Session) (found : Session)
    (hfound : findOne store id (prop user "userId") = .ok (some found))
    (hok : (patchEnd now user id body store).1.status = 200) :
    patchEnd now user id body store =
      (⟨200, .session { found with endTime := .val now, completed := true,
                                   productivity := body.productivity, notes := body.notes }⟩,
        updateOne { found with endTime := .val now, completed := true,
                               productivity := body.productivity, notes := body.notes }
          store) := by
  unfold patchEnd at hok ⊢
  rw [hfound] at hok ⊢
  simp only at hok ⊢
  rcases save_cases store
    { found with endTime := .val now, completed := true,
                 productivity := body.productivity, notes := body.notes } with h | ⟨errs, h⟩
  · rw [h]
  · rw [h] at hok
    simp at hok

/-- Validation does not look at the interruptions. -/
theorem validate_interruptions (doc : Session) (xs : List Interruption) :
    validate { doc with interruptions := xs } = validate doc := rfl

/-- Ending a valid document with a productivity in [1,10] gives a valid document. -/
theorem validate_ended (doc : Session) (now p : Int) (notes : Field String)
    (hvalid : validate doc = []) (hrange : 1 ≤ p ∧ p ≤ 10) :
    validate { doc with endTime := .val now, completed := true, productivity := .val p,
                        notes := notes } = [] := by
  unfold validate at hvalid ⊢
  simp only [List.append_eq_nil] at hvalid ⊢
  refine ⟨⟨⟨hvalid.1.1.1, hvalid.1.1.2⟩, hvalid.1.2⟩, ?_⟩
  simp [checkProductivity, minOk, maxOk, productivityValidator, hrange.1, hrange.2]

/-- On a found session that is a valid document, every one of a run of interruption requests
answers 200. -/
theorem recordAll_ok (user : Claims) (id : IdValue) (calls : List (Int × Field String))
    (store : List Session) (found : Session)
    (hfound : findOne store id (prop user "userId") = .ok (some found))
    (hvalid : validate found = []) :
    ∀ r ∈ (recordAll user id calls store).1, r.status = 200 := by
  induction calls generalizing store found with
  | nil => simp [recordAll]
  | cons c rest ih =>
    obtain ⟨now, reason⟩ := c
    have hstep : postInterruption now user id reason store =
        (⟨200, .session { found with interruptions := found.interruptions ++ [⟨now, reason⟩] }⟩,
          updateOne { found with interruptions := found.interruptions ++ [⟨now, reason⟩] }
            store) := by
      simp only [postInterruption, hfound, save, validate_interruptions, hvalid]
    have hnext := findOne_updateOne store id (prop user "userId") found
      { found with interruptions := found.interruptions ++ [⟨now, reason⟩] } hfound rfl rfl
    intro r hr
    simp only [recordAll, hstep, List.mem_cons] at hr
    rcases hr with rfl | hr
    · rfl
    · exact ih _ _ hnext (by rw [validate_interruptions]; exact hvalid) r hr

/-- After a run of interruption requests that all answer 200, the lookup finds the old
session with the new records, in request order, after the old ones. -/
theorem recordAll_found (user : Claims) (id : IdValue) (calls : List (Int × Field String))
    (store : List Session) (found : Session)
    (hfound : findOne store id (prop user "userId") = .ok (some found))
    (hok : ∀ r ∈ (recordAll user id calls store).1, r.status = 200) :
    findOne (recordAll user id calls store).2 id (prop user "userId") =
        .ok (some { found with
          interruptions := found.interruptions ++ calls.map fun c => ⟨c.1, c.2⟩ }) := by
  induction calls generalizing store found with
  | nil =>
    simp only [recordAll, List.map_nil, List.append_nil]
    exact hfound
  | cons c rest ih =>
    obtain ⟨now, reason⟩ := c
    have hfirst : (postInterruption now user id reason store).1.status = 200 :=
      hok _ (by simp [recordAll])
    have hstep := postInterruption_ok now user id reason store found hfound hfirst
    have hnext := findOne_updateOne store id (prop user "userId") found
      { found with interruptions := found.interruptions ++ [⟨now, reason⟩] } hfound rfl rfl
    have hrest : ∀ r ∈ (recordAll user id rest
        (updateOne { found with interruptions := found.interruptions ++ [⟨now, reason⟩] }
          store)).1, r.status = 200 := by
      intro r hr
      apply hok
      simp only [recordAll, hstep, List.mem_cons]
      exact Or.inr hr
    have := ih _ _ hnext hrest
    simp only [recordAll, hstep, List.map_cons]
    simpa [List.append_assoc] using this

/-- The custom validator does reject a `null` productivity: an end whose body carries
`productivity: null` answers 400 and writes nothing. -/
theorem patchEnd_null_rejected (now : Int) (user : Claims) (id : IdValue) (body : EndBody)
    (store : List Session) (found : Session)
    (hfound : findOne store id (prop user "userId") = .ok (some found))
    (hbody : body.productivity = .null) :
    (patchEnd now user id body store).1.status = 400 ∧
      (patchEnd now user id body store).2 = store := by
  have hcheck : checkProductivity true (.null : Field Int) = [("productivity", "user defined")] := by
    decide
  rcases save_cases store
    { found with endTime := .val now, completed := true,
                 productivity := body.productivity, notes := body.notes } with h | ⟨errs, h⟩
  · exfalso
    unfold save validate at h
    simp only [hbody, hcheck] at h
    split at h
    · next hnil => simp at hnil
    · cases h
  · simp only [patchEnd, hfound, h, and_self]

/-- The middleware accepts the token of login while the clock, in whole seconds, is before
its expiry, and hands on `{ userId }`. -/
theorem auth_signToken (env : Env) (issued now : Int) (userId : ObjectId)
    (hfresh : now / 1000 < issued / 1000 + jwtExpire env) :
    auth env now (some (signToken env issued userId)) = .ok [("userId", .hex userId)] := by
  have h : ¬ now / 1000 ≥ issued / 1000 + jwtExpire env := by omega
  simp [auth, signToken, jwtVerify, h]

/-- The payload of login has no property `_id`. -/
theorem prop_id_of_login (userId : ObjectId) :
    prop [("userId", .hex userId)] "_id" = .undefined := by
  simp [prop, List.lookup]

/-- With the token of login, the listing selects no session that has an owner: when every
stored session has one, the page is empty and `total` is 0, whatever the filters and the
paging of a query whose sort key the server accepts. -/
theorem list_after_login_empty (env : Env) (issued now : Int) (userId : ObjectId)
    (q : ListQuery) (store : List Session)
    (hfresh : now / 1000 < issued / 1000 + jwtExpire env)
    (hsort : validSortPath (buildSort q).path = true)
    (howned : ∀ s ∈ store, ∃ owner, s.user = .val owner) :
    routeGetSessions env now (some (signToken env issued userId)) q store =
      ⟨200, .page [] 0 false⟩ := by
  have hsel : selected (buildMatch [("userId", .hex userId)] q) .undefined store = [] := by
    unfold selected
    rw [List.filter_eq_nil_iff]
    intro s hs
    obtain ⟨owner, ho⟩ := howned s hs
    simp [Match.test, matchesEq, ho]
  have hm : (buildMatch [("userId", .hex userId)] q).user = .undefined :=
    prop_id_of_login userId
  have hdocs : sortDocs (buildSort q) [] = [] := by
    unfold sortDocs
    split
    · split <;> rfl
    · rfl
  simp [routeGetSessions, auth_signToken env issued now userId hfresh, getSessions, find,
    countDocuments, hm, castObjectId, hsel, hsort, hdocs]

/-- With the token of login, the statistics select no session that has an owner: when every
stored session has one, the answer is the zero record. -/
theorem stats_after_login_zero (env : Env) (issued now : Int) (userId : ObjectId)
    (q : StatsQuery) (store : List Session)
    (hfresh : now / 1000 < issued / 1000 + jwtExpire env)
    (howned : ∀ s ∈ store, ∃ owner, s.user = .val owner) :
    routeGetStats env now (some (signToken env issued userId)) q store =
      ⟨200, .stats ⟨0, 0, some 0, 0⟩⟩ := by
  have hsel : ∀ a b : Int, store.filter (statsMatch [("userId", .hex userId)] a b) = [] := by
    intro a b
    rw [List.filter_eq_nil_iff]
    intro s hs
    obtain ⟨owner, ho⟩ := howned s hs
    simp [statsMatch, prop_id_of_login, matchesRaw, ho]
  simp [routeGetStats, auth_signToken env issued now userId hfresh, getStats, hsel, groupAll]

/-- Reading a preference after an assignment. -/
theorem Preferences.get_set (p : Preferences) (k key : String) (v : Field Int) :
    (p.set k v).get key = if key = k ∧ k ∈ allowedUpdates then v else p.get key := by
  unfold Preferences.set Preferences.get allowedUpdates
  by_cases h1 : k = "pomodoroLength"
  · subst h1; by_cases h : key = "pomodoroLength" <;> simp [h]
  · by_cases h2 : k = "shortBreakLength"
    · subst h2; by_cases h : key = "shortBreakLength" <;> simp [h]
    · by_cases h3 : k = "longBreakLength"
      · subst h3; by_cases h : key = "longBreakLength" <;> simp [h]
      · by_cases h4 : k = "dailyGoal"
        · subst h4; by_cases h : key = "dailyGoal" <;> simp [h]
        · simp [h1, h2, h3, h4]

/-- A preference whose key is not among the update keys keeps its value. -/
theorem applyUpdates_other (body : List (String × Field Int)) (keys : List String)
    (initial : Preferences) (key : String) (hkey : key ∉ keys) :
    (applyUpdates body keys initial).get key = initial.get key := by
  unfold applyUpdates
  induction keys generalizing initial with
  | nil => rfl
  | cons k rest ih =>
    have hk : key ≠ k := fun h => hkey (by simp [h])
    have hrest : key ∉ rest := fun h => hkey (by simp [h])
    rw [List.foldl_cons, ih _ hrest, Preferences.get_set]
    simp [hk]

/-- A preference whose key is among the allowed update keys has the value of the body. -/
theorem applyUpdates_key (body : List (String × Field Int)) (keys : List String)
    (initial : Preferences) (key : String) (hkey : key ∈ keys)
    (hallowed : key ∈ allowedUpdates) :
    (applyUpdates body keys initial).get key = bodyValue body key := by
  unfold applyUpdates
  induction keys generalizing initial with
  | nil => simp at hkey
  | cons k rest ih =>
    rw [List.foldl_cons]
    by_cases hrest : key ∈ rest
    · exact ih _ hrest
    · have hk : key = k := by
        rcases List.mem_cons.mp hkey with h | h
        · exact h
        · exact absurd h hrest
      subst hk
      have := applyUpdates_other body rest (initial.set key (bodyValue body key)) key hrest
      unfold applyUpdates at this
      rw [this, Preferences.get_set, if_pos ⟨rfl, hallowed⟩]

/-- The flag `isValidOperation` is false exactly when some key is outside the allow-list. -/
theorem isValidOperation_false (keys : List String) :
    (keys.all fun key => allowedUpdates.contains key) = false ↔
      ∃ key ∈ keys, key ∉ allowedUpdates := by
  simp [List.all_eq_false]

/-- With a key outside the allow-list the handler answers at its first return. -/
theorem patchPreferences_invalid (validateUser : User → List (String × String)) (user : Claims)
    (body : List (String × Field Int)) (users : List User)
    (hbad : ∃ key ∈ body.map Prod.fst, key ∉ allowedUpdates) :
    patchPreferences validateUser user body users =
      (⟨400, .message "Invalid updates in preferences"⟩, users) := by
  have h := (isValidOperation_false (body.map Prod.fst)).mpr hbad
  unfold patchPreferences
  simp only [h, Bool.not_false, if_true]

/-- With every key in the allow-list the handler goes on to the lookup and the save. -/
theorem patchPreferences_valid (validateUser : User → List (String × String)) (user : Claims)
    (body : List (String × Field Int)) (users : List User)
    (hall : ∀ key ∈ body.map Prod.fst, key ∈ allowedUpdates) :
    patchPreferences validateUser user body users =
      match findById users (prop user "userId") with
      | .error _ => (⟨400, .message "Failed to update preferences"⟩, users)
      | .ok none => (⟨404, .message "User not found"⟩, users)
      | .ok (some found) =>
        match validateUser (mergedUser body found) with
        | [] => (⟨200, .preferences
              (mergedPreferences body found)⟩,
            updateUser (mergedUser body found) users)
        | _ :: _ => (⟨400, .message "Failed to update preferences"⟩, users) := by
  have h : ((body.map Prod.fst).all fun key => allowedUpdates.contains key) = true := by
    rw [List.all_eq_true]
    intro key hkey
    simpa using hall key hkey
  unfold patchPreferences
  simp only [h, Bool.not_true, Bool.false_eq_true, if_false]

/-- The paging of the handler, relative to what its filter selects: when the filter casts and
the server accepts the sort key, with `limit >= 1` and `skip >= 0` taken from the query (10
and 0 when absent), the listing answers 200 with `min(limit, max(total - skip, 0))`
sessions, `total` the number of sessions the filter selects, and
`hasMore = (total > skip + limit)`. -/
theorem page_of_selected (user : Claims) (q : ListQuery) (store : List Session)
    (owner : Field ObjectId) (limit skip : Nat)
    (hcast : castObjectId "user" (prop user "_id") = .ok owner)
    (hsort : validSortPath (buildSort q).path = true)
    (hlimit : q.limit = some limit ∨ (q.limit = none ∧ limit = 10)) (hpos : 1 ≤ limit)
    (hskip : q.skip = some skip ∨ (q.skip = none ∧ skip = 0)) :
    ∃ sessions : List Session,
      getSessions user q store =
        ⟨200, .page sessions (selected (buildMatch user q) owner store).length
          (decide ((selected (buildMatch user q) owner store).length > skip + limit))⟩ ∧
      (sessions.length : Int) =
        min (limit : Int)
          (max (((selected (buildMatch user q) owner store).length : Int) - (skip : Int)) 0) := by
  have hl : pageLimit q = limit := by
    unfold pageLimit
    rcases hlimit with h | ⟨h, h10⟩
    · rw [h]
      simp only
      rw [if_neg (by omega)]
    · rw [h, h10]
  have hs : pageSkip q = skip := by
    unfold pageSkip
    rcases hskip with h | ⟨h, h0⟩
    · rw [h]
      simp only
      split <;> omega
    · rw [h, h0]
  have hm : (buildMatch user q).user = prop user "_id" := rfl
  refine ⟨((sortDocs (buildSort q) (selected (buildMatch user q) owner store)).drop
    skip).take limit, ?_, ?_⟩
  · simp only [getSessions, find, countDocuments, hm, hcast, hl, hs, hsort, if_true]
  · rw [length_page]
    omega

/-- Every 400 of `PATCH /preferences` carries one of the two messages of the handler:
'Invalid updates in preferences' when some key is outside the allow-list, and 'Failed to
update preferences', from the `catch` block, when every key is allowed. -/
theorem patchPreferences_400_message (validateUser : User → List (String × String))
    (user : Claims) (body : List (String × Field Int)) (users : List User)
    (h400 : (patchPreferences validateUser user body users).1.status = 400) :
    ((∃ key ∈ body.map Prod.fst, key ∉ allowedUpdates) ∧
      (patchPreferences validateUser user body users).1 =
        ⟨400, .message "Invalid updates in preferences"⟩) ∨
    ((∀ key ∈ body.map Prod.fst, key ∈ allowedUpdates) ∧
      (patchPreferences validateUser user body users).1 =
        ⟨400, .message "Failed to update preferences"⟩) := by
  by_cases hbad : ∃ key ∈ body.map Prod.fst, key ∉ allowedUpdates
  · exact Or.inl ⟨hbad, by rw [patchPreferences_invalid validateUser user body users hbad]⟩
  · have hall : ∀ key ∈ body.map Prod.fst, key ∈ allowedUpdates := by
      intro key hkey
      by_contra hout
      exact hbad ⟨key, hkey, hout⟩
    refine Or.inr ⟨hall, ?_⟩
    rw [patchPreferences_valid validateUser user body users hall] at h400 ⊢
    cases hf : findById users (prop user "userId") with
    | error e => rfl
    | ok o =>
      cases o with
      | none => rw [hf] at h400; simp at h400
      | some found =>
        rw [hf] at h400
        cases hv : validateUser (mergedUser body found) with
        | nil => simp [hv] at h400
        | cons e es => simp only [hv]

/-! ## The claims -/

/-- C1, evaluated at the failing input: user 7 owns the one stored session and lists with the
token that login signs for them. The handler filters on `req.user._id`, a property the
payload `{ userId }` does not have, so the page is empty and `total` is 0, where the claim
asks for that session and a total of 1. -/
theorem list_after_login_misses_own_session :
    routeGetSessions env0 1000 (some (signToken env0 0 7)) emptyQuery [workSession 1 7 100] =
      ⟨200, .page [] 0 false⟩ := by
  decide

/-- C2, evaluated at the failing input: user 7 owns fifteen stored sessions and lists them
with the token that login signs for them, `limit=10`, first with `skip=0`, then with
`skip=10`. The filter on `req.user._id` selects none of the fifteen, so both pages are empty
with `total` 0 and `hasMore` false, where the claim asks for 10 sessions with `hasMore` true
and then the other 5 with `hasMore` false. -/
theorem list_fifteen_after_login_empty :
    routeGetSessions env0 1000 (some (signToken env0 0 7))
        { emptyQuery with limit := some 10, skip := some 0 } fifteen =
      ⟨200, .page [] 0 false⟩ ∧
    routeGetSessions env0 1000 (some (signToken env0 0 7))
        { emptyQuery with limit := some 10, skip := some 10 } fifteen =
      ⟨200, .page [] 0 false⟩ := by
  decide

/-- C3: when the caller's lookup finds the session and the body carries a number `p` with
`p < 1` or `p > 10`, `PATCH /:id/end` answers 400 and the collection is what it was; the
same lookup still finds the session as it was stored. -/
theorem end_rejects_out_of_range (now : Int) (user : Claims) (id : IdValue) (body : EndBody)
    (store : List Session) (found : Session) (p : Int)
    (hfound : findOne store id (prop user "userId") = .ok (some found))
    (hbody : body.productivity = .val p) (hrange : p < 1 ∨ p > 10) :
    (patchEnd now user id body store).1.status = 400 ∧
      (patchEnd now user id body store).2 = store ∧
      findOne (patchEnd now user id body store).2 id (prop user "userId") =
        .ok (some found) := by
  have hcheck : ∃ e, checkProductivity true (.val p) = [e] := by
    unfold checkProductivity minOk maxOk
    simp only
    by_cases h1 : p ≥ 1
    · have h10 : ¬ p ≤ 10 := by omega
      exact ⟨("productivity", "max"), by simp [h1, h10]⟩
    · exact ⟨("productivity", "min"), by simp [h1]⟩
  obtain ⟨e, he⟩ := hcheck
  have hsave : ∀ doc : Session, doc.completed = true → doc.productivity = .val p →
      ∃ errs, save store doc = .error (.ValidationError errs) := by
    intro doc hc hp
    unfold save validate
    rw [hc, hp, he]
    split
    · next hnil => simp at hnil
    · exact ⟨_, rfl⟩
  obtain ⟨errs, herrs⟩ := hsave
    { found with endTime := .val now, completed := true,
                 productivity := body.productivity, notes := body.notes } rfl hbody
  have hrun : patchEnd now user id body store =
      (⟨400, .failure "Could not end session" (.ValidationError errs)⟩, store) := by
    simp only [patchEnd, hfound, herrs]
  rw [hrun]
  exact ⟨rfl, rfl, hfound⟩

/-- C3 at productivity 0: the session of user 7 stays as stored. -/
theorem end_rejects_out_of_range_witness :
    (patchEnd 200 [("userId", .hex 7)] (.hex 1) ⟨.val 0, .undefined⟩
        [workSession 1 7 100]).1.status = 400 ∧
      (patchEnd 200 [("userId", .hex 7)] (.hex 1) ⟨.val 0, .undefined⟩
        [workSession 1 7 100]).2 = [workSession 1 7 100] ∧
      findOne (patchEnd 200 [("userId", .hex 7)] (.hex 1) ⟨.val 0, .undefined⟩
        [workSession 1 7 100]).2 (.hex 1) (prop [("userId", .hex 7)] "userId") =
        .ok (some (workSession 1 7 100)) :=
  end_rejects_out_of_range 200 [("userId", .hex 7)] (.hex 1) ⟨.val 0, .undefined⟩
    [workSession 1 7 100] (workSession 1 7 100) 0 rfl rfl (Or.inl (by decide))

/-- C4, evaluated at the failing input: user 7 ends their session with a body that has no
`productivity`. The custom validator is not run on an `undefined` value, so the request
answers 200 and the stored session is completed with no productivity, where the claim asks
for a rejection. -/
theorem end_without_productivity_is_stored :
    routePatchEnd env0 200 (some (signToken env0 0 7)) (.hex 1) ⟨.undefined, .undefined⟩
        [workSession 1 7 100] =
      (⟨200, .session { workSession 1 7 100 with endTime := .val 200, completed := true }⟩,
        [{ workSession 1 7 100 with endTime := .val 200, completed := true }]) ∧
    ({ workSession 1 7 100 with endTime := .val 200, completed := true } : Session).productivity
      = .undefined := by
  decide

/-- C5: for a session `s` owned by `a` and a caller `b` other than `a`, ending `s` and
recording an interruption on `s` both answer 404 'Session not found' and leave the collection
as it was; the answer is the one given for an id that no document has. -/
theorem cross_user_is_not_found (now : Int) (store : List Session) (s : Session)
    (a b missing : ObjectId) (user : Claims) (body : EndBody) (reason : Field String)
    (hnodup : (store.map Session._id).Nodup) (hs : s ∈ store) (howner : s.user = .val a)
    (hcaller : prop user "userId" = .hex b) (hne : b ≠ a)
    (hmissing : ∀ d ∈ store, d._id ≠ missing) :
    patchEnd now user (.hex s._id) body store = (⟨404, .message "Session not found"⟩, store) ∧
    postInterruption now user (.hex s._id) reason store =
      (⟨404, .message "Session not found"⟩, store) ∧
    patchEnd now user (.hex s._id) body store = patchEnd now user (.hex missing) body store ∧
    postInterruption now user (.hex s._id) reason store =
      postInterruption now user (.hex missing) reason store := by
  have h1 := findOne_other_owner store s a b hnodup hs howner hne
  have h2 := findOne_missing store missing b hmissing
  simp only [patchEnd, postInterruption, hcaller, h1, h2, and_self]

/-- C5 at user 8 calling on the session of user 7, and on the absent id 2. -/
theorem cross_user_is_not_found_witness :
    patchEnd 200 [("userId", .hex 8)] (.hex (workSession 1 7 100)._id) ⟨.val 5, .undefined⟩
        [workSession 1 7 100] =
      (⟨404, .message "Session not found"⟩, [workSession 1 7 100]) ∧
    postInterruption 200 [("userId", .hex 8)] (.hex (workSession 1 7 100)._id) (.val "call")
        [workSession 1 7 100] =
      (⟨404, .message "Session not found"⟩, [workSession 1 7 100]) ∧
    patchEnd 200 [("userId", .hex 8)] (.hex (workSession 1 7 100)._id) ⟨.val 5, .undefined⟩
        [workSession 1 7 100] =
      patchEnd 200 [("userId", .hex 8)] (.hex 2) ⟨.val 5, .undefined⟩ [workSession 1 7 100] ∧
    postInterruption 200 [("userId", .hex 8)] (.hex (workSession 1 7 100)._id) (.val "call")
        [workSession 1 7 100] =
      postInterruption 200 [("userId", .hex 8)] (.hex 2) (.val "call") [workSession 1 7 100] :=
  cross_user_is_not_found 200 [workSession 1 7 100] (workSession 1 7 100) 7 8 2
    [("userId", .hex 8)] ⟨.val 5, .undefined⟩ (.val "call") (by decide) (by decide) rfl
    (by decide) (by decide) (by decide)

/-- C6: when the caller's lookup finds a session with interruption sequence `xs`, N successive
interruption requests all answer 200 if the session is a valid document, and whenever they
all answer 200 the session found afterwards is the old one with, after `xs`, exactly the N
new records in request order, each with its instant and its reason; nothing else of the
session has changed. -/
theorem interruptions_append (user : Claims) (id : IdValue)
    (calls : List (Int × Field String)) (store : List Session) (found : Session)
    (hfound : findOne store id (prop user "userId") = .ok (some found)) :
    (validate found = [] → ∀ r ∈ (recordAll user id calls store).1, r.status = 200) ∧
    ((∀ r ∈ (recordAll user id calls store).1, r.status = 200) →
      findOne (recordAll user id calls store).2 id (prop user "userId") =
        .ok (some { found with
          interruptions := found.interruptions ++ calls.map fun c => ⟨c.1, c.2⟩ }) ∧
      (calls.map fun c => (⟨c.1, c.2⟩ : Interruption)).length = calls.length ∧
      (calls.map fun c => (⟨c.1, c.2⟩ : Interruption)).map Interruption.reason =
        calls.map Prod.snd) := by
  refine ⟨recordAll_ok user id calls store found hfound, fun hok => ⟨?_, ?_, ?_⟩⟩
  · exact recordAll_found user id calls store found hfound hok
  · simp
  · simp [List.map_map, Function.comp_def]

/-- C6 at two interruptions on a session that already has one. -/
theorem interruptions_append_witness :
    findOne (recordAll [("userId", .hex 7)] (.hex 1) [(200, .val "call"), (300, .val "mail")]
        [{ workSession 1 7 100 with interruptions := [⟨150, .val "door"⟩] }]).2 (.hex 1)
        (prop [("userId", .hex 7)] "userId") =
      .ok (some { workSession 1 7 100 with
        interruptions := [⟨150, .val "door"⟩, ⟨200, .val "call"⟩, ⟨300, .val "mail"⟩] }) :=
  ((interruptions_append [("userId", .hex 7)] (.hex 1)
    [(200, .val "call"), (300, .val "mail")]
    [{ workSession 1 7 100 with interruptions := [⟨150, .val "door"⟩] }]
    { workSession 1 7 100 with interruptions := [⟨150, .val "door"⟩] } rfl).2
      (by decide)).1

/-- C7: when the caller's lookup finds the session and the body carries a productivity `p` in
[1,10], the end answers 200 if the session is a valid document, and whenever it answers 200
the session sent back and found afterwards has `endTime = now`, `completed = true`,
`productivity = p` and the notes of the body, and its owner, type, duration, start time,
task and interruptions are those of the session found before. -/
theorem end_sets_only_its_fields (now : Int) (user : Claims) (id : IdValue) (body : EndBody)
    (store : List Session) (found : Session) (p : Int)
    (hfound : findOne store id (prop user "userId") = .ok (some found))
    (hbody : body.productivity = .val p) (hrange : 1 ≤ p ∧ p ≤ 10) :
    (validate found = [] → (patchEnd now user id body store).1.status = 200) ∧
    ((patchEnd now user id body store).1.status = 200 →
      ∃ s : Session,
        (patchEnd now user id body store).1 = ⟨200, .session s⟩ ∧
        findOne (patchEnd now user id body store).2 id (prop user "userId") = .ok (some s) ∧
        s.endTime = .val now ∧ s.completed = true ∧ s.productivity = .val p ∧
        s.notes = body.notes ∧
        s._id = found._id ∧ s.user = found.user ∧ s.sessionType = found.sessionType ∧
        s.duration = found.duration ∧ s.startTime = found.startTime ∧ s.task = found.task ∧
        s.interruptions = found.interruptions) := by
  constructor
  · intro hvalid
    have hv := validate_ended found now p body.notes hvalid hrange
    simp only [patchEnd, hfound, save, hbody, hv]
  · intro hok
    have hrun := patchEnd_ok now user id body store found hfound hok
    refine ⟨{ found with endTime := .val now, completed := true,
                         productivity := body.productivity, notes := body.notes }, ?_⟩
    rw [hrun]
    refine ⟨rfl, ?_, rfl, rfl, hbody, rfl, rfl, rfl, rfl, rfl, rfl, rfl, rfl⟩
    exact findOne_updateOne store id (prop user "userId") found _ hfound rfl rfl

/-- C7 at productivity 8 with a note, on the session of user 7. -/
theorem end_sets_only_its_fields_witness :
    ∃ s : Session,
      (patchEnd 200 [("userId", .hex 7)] (.hex 1) ⟨.val 8, .val "done"⟩
        [workSession 1 7 100]).1 = ⟨200, .session s⟩ ∧
      findOne (patchEnd 200 [("userId", .hex 7)] (.hex 1) ⟨.val 8, .val "done"⟩
        [workSession 1 7 100]).2 (.hex 1) (prop [("userId", .hex 7)] "userId") =
        .ok (some s) ∧
      s.endTime = .val 200 ∧ s.completed = true ∧ s.productivity = .val 8 ∧
      s.notes = .val "done" ∧
      s._id = (workSession 1 7 100)._id ∧ s.user = (workSession 1 7 100).user ∧
      s.sessionType = (workSession 1 7 100).sessionType ∧
      s.duration = (workSession 1 7 100).duration ∧
      s.startTime = (workSession 1 7 100).startTime ∧ s.task = (workSession 1 7 100).task ∧
      s.interruptions = (workSession 1 7 100).interruptions :=
  (end_sets_only_its_fields 200 [("userId", .hex 7)] (.hex 1) ⟨.val 8, .val "done"⟩
    [workSession 1 7 100] (workSession 1 7 100) 8 rfl rfl (by decide)).2 (by decide)

/-- C8, evaluated at the failing input: user 7 owns one completed session (25 minutes, one
interruption) and asks for the statistics with the token that login signs for them. The
pipeline matches on `req.user._id`, a property the payload `{ userId }` does not have, so
nothing matches and the zero record is sent, where the claim asks for one session, 25
minutes and one interruption. -/
theorem stats_after_login_misses_own_sessions :
    routeGetStats env0 1000 (some (signToken env0 0 7)) ⟨none, none⟩ [completedSession] =
      ⟨200, .stats ⟨0, 0, some 0, 0⟩⟩ := by
  decide

/-- C9 as stated fails: with a credential whose `userId` spells no ObjectId and the empty
body, the lookup throws, the handler answers 400 and the stored users are not modified,
although no key of the body is outside the allow-list. -/
theorem preferences_400_without_foreign_key :
    ¬ (((patchPreferences (fun _ => []) [("userId", .text "me")] [] [sampleUser]).1.status = 400 ∧
        (patchPreferences (fun _ => []) [("userId", .text "me")] [] [sampleUser]).2 =
          [sampleUser]) ↔
      ∃ key ∈ ([] : List (String × Field Int)).map Prod.fst, key ∉ allowedUpdates) := by
  decide

/-- C9, amended: the handler answers 400 'Invalid updates in preferences' if and only if some
key of the body is outside the allow-list; every 400 leaves the stored users as they were,
and besides a foreign key a 400 comes exactly from a lookup that throws or a save that the
schema rejects; when every key is allowed, the user is found and the save is accepted, the
answer is 200 with the merged preferences, which are stored: each submitted key has its
submitted value and every key not submitted has its previous value. -/
theorem preferences_update (validateUser : User → List (String × String)) (user : Claims)
    (body : List (String × Field Int)) (users : List User) :
    ((∃ key ∈ body.map Prod.fst, key ∉ allowedUpdates) ↔
      (patchPreferences validateUser user body users).1 =
        ⟨400, .message "Invalid updates in preferences"⟩) ∧
    ((patchPreferences validateUser user body users).1.status = 400 →
      (patchPreferences validateUser user body users).2 = users) ∧
    ((patchPreferences validateUser user body users).1.status = 400 ↔
      (∃ key ∈ body.map Prod.fst, key ∉ allowedUpdates) ∨
      (∃ e, findById users (prop user "userId") = .error e) ∨
      (∃ found, findById users (prop user "userId") = .ok (some found) ∧
        validateUser (mergedUser body found) ≠ [])) ∧
    ((∀ key ∈ body.map Prod.fst, key ∈ allowedUpdates) →
      ∀ found : User, findById users (prop user "userId") = .ok (some found) →
      validateUser (mergedUser body found) = [] →
      patchPreferences validateUser user body users =
        (⟨200, .preferences
            (mergedPreferences body found)⟩,
          updateUser (mergedUser body found)
            users) ∧
      (∀ key value, body.lookup key = some value →
        (mergedPreferences body found).get key = value) ∧
      (∀ key, key ∉ body.map Prod.fst →
        (mergedPreferences body found).get key =
          (initialPreferences found).get key)) := by
  by_cases hbad : ∃ key ∈ body.map Prod.fst, key ∉ allowedUpdates
  · have hrun := patchPreferences_invalid validateUser user body users hbad
    refine ⟨⟨fun _ => by rw [hrun], fun _ => hbad⟩, fun _ => by rw [hrun],
      ⟨fun _ => Or.inl hbad, fun _ => by rw [hrun]⟩, ?_⟩
    intro hall
    obtain ⟨key, hkey, hout⟩ := hbad
    exact absurd (hall key hkey) hout
  · have hall : ∀ key ∈ body.map Prod.fst, key ∈ allowedUpdates := by
      intro key hkey
      by_contra hout
      exact hbad ⟨key, hkey, hout⟩
    have hrun := patchPreferences_valid validateUser user body users hall
    refine ⟨?_, ?_, ?_, ?_⟩
    · constructor
      · intro h
        exact absurd h hbad
      · intro h
        rw [hrun] at h
        cases hf : findById users (prop user "userId") with
        | error e => rw [hf] at h; simp at h
        | ok o =>
          cases o with
          | none => rw [hf] at h; simp at h
          | some found =>
            rw [hf] at h
            simp only at h
            split at h <;> simp at h
    · intro h
      rw [hrun] at h ⊢
      cases hf : findById users (prop user "userId") with
      | error e => rfl
      | ok o =>
        cases o with
        | none => rfl
        | some found =>
          rw [hf] at h
          simp only at h ⊢
          split
          · next hv => rw [hv] at h; simp at h
          · rfl
    · rw [hrun]
      cases hf : findById users (prop user "userId") with
      | error e => exact ⟨fun _ => Or.inr (Or.inl ⟨e, rfl⟩), fun _ => rfl⟩
      | ok o =>
        cases o with
        | none =>
          constructor
          · intro h
            simp at h
          · rintro (h | ⟨e, he⟩ | ⟨f, hfd, _⟩)
            · exact absurd h hbad
            · cases he
            · cases hfd
        | some found =>
          cases hv : validateUser (mergedUser body found) with
          | nil =>
            constructor
            · intro h
              simp [hv] at h
            · rintro (h | ⟨e, he⟩ | ⟨f, hfd, hne⟩)
              · exact absurd h hbad
              · cases he
              · cases hfd
                exact absurd hv hne
          | cons a b =>
            constructor
            · intro _
              exact Or.inr (Or.inr ⟨found, rfl, by simp [hv]⟩)
            · intro _
              simp only [hv]
    · intro _ found hf hv
      refine ⟨?_, ?_, ?_⟩
      · rw [hrun, hf]
        simp only [hv]
      · intro key value hlookup
        have hmem : key ∈ body.map Prod.fst := by
          have := List.lookup_eq_some_iff.mp hlookup
          obtain ⟨l1, l2, hl, _⟩ := this
          rw [hl]
          simp
        unfold mergedPreferences
        rw [applyUpdates_key body _ _ key hmem (hall key hmem)]
        simp [bodyValue, hlookup]
      · intro key hkey
        exact applyUpdates_other body _ _ key hkey

/-- C9, amended, at user 7 submitting `{ dailyGoal: 5 }`: the answer is 200 and the goal is
stored, the other preferences staying unset. -/
theorem preferences_update_witness :
    patchPreferences (fun _ => []) [("userId", .hex 7)] [("dailyGoal", .val 5)] [sampleUser] =
      (⟨200, .preferences ⟨.undefined, .undefined, .undefined, .val 5⟩⟩,
        [{ sampleUser with preferences := some ⟨.undefined, .undefined, .undefined, .val 5⟩ }]) :=
  ((preferences_update (fun _ => []) [("userId", .hex 7)] [("dailyGoal", .val 5)]
    [sampleUser]).2.2.2 (by decide) sampleUser rfl rfl).1

/-- C10: for two login requests that pass the validation chain, one with an email that no
user has, the other with the email of a user whose password does not match, both responses
are status 400 with body `{ message: 'Invalid credentials' }`, hence equal, and neither
carries a token. -/
theorem login_failures_identical (env : Env) (now : Int) (isEmail : String → Bool)
    (normalizeEmail : String → String) (comparePassword : String → String → Bool)
    (unknown wrong : LoginBody) (users : List User) (found : User)
    (hvalid1 : loginErrors isEmail unknown = [])
    (hvalid2 : loginErrors isEmail wrong = [])
    (hnone : ∀ u ∈ users, u.email ≠ normalizeEmail (unknown.email.getD ""))
    (hfound : users.find? (fun u => decide (u.email = normalizeEmail (wrong.email.getD ""))) =
      some found)
    (hwrong : comparePassword (wrong.password.getD "") found.password = false) :
    postLogin env now isEmail normalizeEmail comparePassword unknown users =
        ⟨400, .message "Invalid credentials"⟩ ∧
      postLogin env now isEmail normalizeEmail comparePassword wrong users =
        ⟨400, .message "Invalid credentials"⟩ ∧
      postLogin env now isEmail normalizeEmail comparePassword unknown users =
        postLogin env now isEmail normalizeEmail comparePassword wrong users := by
  have hlookup : users.find?
      (fun u => decide (u.email = normalizeEmail (unknown.email.getD ""))) = none := by
    rw [List.find?_eq_none]
    intro u hu
    simpa using hnone u hu
  have h1 : postLogin env now isEmail normalizeEmail comparePassword unknown users =
      ⟨400, .message "Invalid credentials"⟩ := by
    simp only [postLogin, hvalid1, hlookup]
  have h2 : postLogin env now isEmail normalizeEmail comparePassword wrong users =
      ⟨400, .message "Invalid credentials"⟩ := by
    simp only [postLogin, hvalid2, hfound, hwrong, Bool.not_false, if_true]
  exact ⟨h1, h2, h1.trans h2.symm⟩

/-- C10 at the stored user ada: an unknown email and a wrong password get the same answer. -/
theorem login_failures_identical_witness :
    postLogin env0 0 (fun _ => true) (fun e => e) (fun pw hash => decide (hash = "hash-of-" ++ pw))
        ⟨some "bob@example.org", some "secret"⟩ [sampleUser] =
      ⟨400, .message "Invalid credentials"⟩ ∧
    postLogin env0 0 (fun _ => true) (fun e => e) (fun pw hash => decide (hash = "hash-of-" ++ pw))
        ⟨some "ada@example.org", some "guess"⟩ [sampleUser] =
      ⟨400, .message "Invalid credentials"⟩ ∧
    postLogin env0 0 (fun _ => true) (fun e => e) (fun pw hash => decide (hash = "hash-of-" ++ pw))
        ⟨some "bob@example.org", some "secret"⟩ [sampleUser] =
      postLogin env0 0 (fun _ => true) (fun e => e)
        (fun pw hash => decide (hash = "hash-of-" ++ pw))
        ⟨some "ada@example.org", some "guess"⟩ [sampleUser] :=
  login_failures_identical env0 0 (fun _ => true) (fun e => e)
    (fun pw hash => decide (hash = "hash-of-" ++ pw))
    ⟨some "bob@example.org", some "secret"⟩ ⟨some "ada@example.org", some "guess"⟩
    [sampleUser] sampleUser rfl rfl (by decide) rfl (by decide)

/-! ## Lemmas on the analytics pipelines -/

theorem mem_distinct {α : Type} [DecidableEq α] (l : List α) (x : α) :
    x ∈ distinct l ↔ x ∈ l := by
  induction l with
  | nil => simp [distinct]
  | cons a rest ih =>
    simp only [distinct, List.mem_cons, List.mem_filter, decide_eq_true_eq, ih]
    by_cases h : x = a
    · simp [h]
    · simp [h]

theorem nodup_distinct {α : Type} [DecidableEq α] (l : List α) : (distinct l).Nodup := by
  induction l with
  | nil => simp [distinct]
  | cons a rest ih =>
    simp only [distinct, List.nodup_cons, List.mem_filter, decide_eq_true_eq]
    exact ⟨fun h => h.2 rfl, ih.filter _⟩

/-- The keys of the `$group` stage are the distinct keys of its input. -/
theorem map_id_groupByCategory (docs : List Session) :
    (groupByCategory docs).map CategoryStats._id =
      distinct (docs.map fun s => groupKey s.task.category) := by
  unfold groupByCategory
  rw [List.map_map]
  exact List.map_id _

/-- Every record of the `$group` stage is the accumulation over its own key. -/
theorem mem_groupByCategory (docs : List Session) (e : CategoryStats)
    (he : e ∈ groupByCategory docs) : e = categoryGroup docs e._id := by
  unfold groupByCategory at he
  obtain ⟨key, _, rfl⟩ := List.mem_map.mp he
  rfl

/-- The order of `$sort: { totalMinutes: -1 }` is total and transitive, so the sort stage
gives a sorted list. -/
theorem sorted_categoryStats (user : Claims) (store : List Session) :
    (categoryStats user store).Sorted CategoryStats.before := by
  haveI : IsTotal CategoryStats CategoryStats.before :=
    ⟨fun a b => by unfold CategoryStats.before; exact le_total _ _⟩
  haveI : IsTrans CategoryStats CategoryStats.before :=
    ⟨fun a b c hab hbc => by
      unfold CategoryStats.before at *
      exact le_trans hbc hab⟩
  exact List.sorted_insertionSort CategoryStats.before _

/-- With a token of login the owner test of an aggregation compares a stored ObjectId with a
string, so the `$match` stage of `/categories` lets no session through, whatever the store
holds. -/
theorem categories_after_login_empty (env : Env) (issued now : Int) (userId : ObjectId)
    (store : List Session) (hfresh : now / 1000 < issued / 1000 + jwtExpire env) :
    routeGetCategories env now (some (signToken env issued userId)) store =
      .ok ⟨200, .categories []⟩ := by
  have hsel : categoryMatched [("userId", .hex userId)] store = [] := by
    unfold categoryMatched
    rw [List.filter_eq_nil_iff]
    intro s _
    simp [categoriesMatch, prop, List.lookup, matchesRaw]
  simp [routeGetCategories, auth_signToken env issued now userId hfresh, getCategories,
    categoryStats, hsel, groupByCategory, distinct]

/-- The accumulator of `String.intercalate` can be taken out in front. -/
theorem intercalate_go_append (x acc separator : String) (items : List String) :
    String.intercalate.go (x ++ acc) separator items =
      x ++ String.intercalate.go acc separator items := by
  induction items generalizing acc with
  | nil => rfl
  | cons a rest ih =>
    simp only [String.intercalate.go]
    rw [← ih]
    simp only [String.append_assoc]

/-- The method `join` puts the separator between the elements, `null` read as the empty
string: it is `String.intercalate` on the rendered elements. -/
theorem join_eq_intercalate (separator : String) (items : List (Option String)) :
    join separator items = String.intercalate separator (items.map fun a => a.getD "") := by
  induction items with
  | nil => rfl
  | cons a rest ih =>
    cases rest with
    | nil => rfl
    | cons b rest2 =>
      simp only [join, ih, List.map_cons, String.intercalate, String.intercalate.go]
      rw [intercalate_go_append]

/-- The message of the second template never is the fixed sentence of the other branch. -/
theorem common_ne_none (names : String) :
    "Common interruptions: " ++ names ++ ". Consider addressing these distractions." ≠
      "No significant interruption patterns detected." := by
  intro h
  have := congrArg String.data h
  simp [String.data_append] at this

/-- What the stages of `/categories` do with the sessions that pass the `$match` stage: the
answer is 200 with one entry per distinct category value among them, `null` being one; a
session that fails the owner match, is not completed or has no `task.category` property is
not among them; each entry counts and sums exactly the matched sessions with its value; and
the entries are in order of non-increasing `totalMinutes`. -/
theorem category_breakdown (user : Claims) (store : List Session) :
    getCategories user store = ⟨200, .categories (categoryStats user store)⟩ ∧
    ((categoryStats user store).map CategoryStats._id).Nodup ∧
    (∀ key : Option String, key ∈ (categoryStats user store).map CategoryStats._id ↔
      ∃ s ∈ categoryMatched user store, groupKey s.task.category = key) ∧
    (∀ s : Session, s ∈ categoryMatched user store ↔
      s ∈ store ∧ matchesRaw (prop user "userId") s.user = true ∧ s.completed = true ∧
        s.task.category ≠ .undefined) ∧
    (∀ e ∈ categoryStats user store,
      e.totalSessions = ((categoryMatched user store).filter
        fun s => decide (groupKey s.task.category = e._id)).length ∧
      e.totalMinutes = (((categoryMatched user store).filter
        fun s => decide (groupKey s.task.category = e._id)).map
          fun s => numberOr0 s.duration).sum ∧
      e.avgProductivity = avg (((categoryMatched user store).filter
        fun s => decide (groupKey s.task.category = e._id)).map fun s => s.productivity) ∧
      e.interruptions = (((categoryMatched user store).filter
        fun s => decide (groupKey s.task.category = e._id)).map
          fun s => s.interruptions.length).sum) ∧
    (categoryStats user store).Pairwise (fun a b => a.totalMinutes ≥ b.totalMinutes) := by
  have hperm : List.Perm (categoryStats user store)
      (groupByCategory (categoryMatched user store)) :=
    List.perm_insertionSort _ _
  refine ⟨rfl, ?_, ?_, ?_, ?_, ?_⟩
  · rw [(hperm.map CategoryStats._id).nodup_iff, map_id_groupByCategory]
    exact nodup_distinct _
  · intro key
    rw [(hperm.map CategoryStats._id).mem_iff, map_id_groupByCategory, mem_distinct]
    simp only [List.mem_map]
  · intro s
    unfold categoryMatched categoriesMatch
    rw [List.mem_filter]
    cases hc : s.task.category <;> simp [Field.isPresent]
  · intro e he
    have hmem := mem_groupByCategory _ e (hperm.mem_iff.mp he)
    refine ⟨?_, ?_, ?_, ?_⟩
    · exact congrArg CategoryStats.totalSessions hmem
    · exact congrArg CategoryStats.totalMinutes hmem
    · exact congrArg CategoryStats.avgProductivity hmem
    · exact congrArg CategoryStats.interruptions hmem
  · exact sorted_categoryStats user store

/-! ## The claims on the analytics -/

/-- C11, evaluated at the failing input: user 7 owns one completed session in the category
"writing" and asks for the categories with the token that login signs for them. The `$match`
stage of the aggregation compares the stored ObjectId with the string `userId` of the token,
which `aggregate` does not cast, so no session passes and the answer is the empty array,
where the claim asks for one entry for "writing". -/
theorem categories_after_login_misses_own_sessions :
    routeGetCategories env0 1000 (some (signToken env0 0 7)) [writingSession] =
      .ok ⟨200, .categories []⟩ := by
  rfl

/-- C12: `/insights` answers 200 with the two pipelines' lists and the recommendations made
from them; for every list of hours `hs` and of reasons `rs` there are exactly two
recommendations; the first message names the hours of `hs`, each as `H:00`, joined by
', '; the second names the reasons of `rs` joined by ', ' (a `null` reason as the empty
string) when `rs` is not empty, and it is 'No significant interruption patterns detected.'
if and only if `rs` is empty. -/
theorem insights_recommendations (user : Claims) (store : List Session)
    (hs : List HourStats) (rs : List ReasonStats) :
    getInsights user store =
      ⟨200, .insights (productiveHours user store) (topInterruptions user store)
        (recommendations (productiveHours user store) (topInterruptions user store))⟩ ∧
    ∃ first second : Recommendation,
      recommendations hs rs = [first, second] ∧
      first.message = "Your most productive hours are " ++
        String.intercalate ", " (hs.map fun h => toString h._id ++ ":00") ++
        ". Try scheduling important tasks during these times." ∧
      (rs ≠ [] → second.message = "Common interruptions: " ++
        String.intercalate ", " (rs.map fun r => r._id.getD "") ++
        ". Consider addressing these distractions.") ∧
      (second.message = "No significant interruption patterns detected." ↔ rs = []) := by
  refine ⟨rfl, _, _, rfl, ?_, ?_, ?_⟩
  · simp only [join_eq_intercalate, List.map_map, Function.comp_def, Option.getD_some]
  · intro hne
    have hpos : rs.length > 0 := List.length_pos.mpr hne
    simp only [hpos, if_true, join_eq_intercalate, List.map_map, Function.comp_def]
  · constructor
    · intro h
      by_contra hne
      have hpos : rs.length > 0 := List.length_pos.mpr hne
      simp only [hpos, if_true] at h
      exact common_ne_none _ h
    · intro h
      subst h
      rfl

/-- C12 at one hour and two reasons. -/
theorem insights_recommendations_witness :
    ∃ first second : Recommendation,
      recommendations [⟨9, some 8, 2⟩] [⟨some "call", 2⟩, ⟨some "mail", 1⟩] =
        [first, second] ∧
      first.message =
        "Your most productive hours are 9:00. Try scheduling important tasks during these times." ∧
      second.message =
        "Common interruptions: call, mail. Consider addressing these distractions." := by
  obtain ⟨first, second, h, h1, h2, _⟩ :=
    (insights_recommendations [] [] [⟨9, some 8, 2⟩] [⟨some "call", 2⟩, ⟨some "mail", 1⟩]).2
  exact ⟨first, second, h, h1.trans (by decide), (h2 (by simp)).trans (by decide)⟩

end FocusFlow
